import Mathlib

/-!
# Verification of the Pi-Pico HUB75 driver core

Shallow embedding of the CPU-side pieces of the HUB75 display driver:

* `Hub75.Driver` — `src/src/lib/hub75/driver.py` (`Hub75Driver`): the
  timing-word generator `_update_timing_buffer`, the refresh-rate estimator
  `_estimate_refresh_rate`, `set_target_refresh_rate`, `flip`,
  `set_brightness`, `set_blanking_time` and the double-buffer bookkeeping.
* `Hub75.Display` — `src/src/lib/hub75/display.py` (`BitPlanes`): the
  PPM → bitplane encoder `_load_ppm` and its `load_ppm` wrapper.
* `Hub75.Frame` — `src/src/lib/hub75/matrix_frame.py` (`MatrixFrame.__init__`).

CPython floats are modelled as exact rationals (`ℚ`); machine integers as
`ℕ`/`ℤ` (Python ints are unbounded, `//` is floor division, hence `Int.fdiv`).
-/

namespace Hub75

namespace Driver

/-- `COLOR_BIT_DEPTH` from `src/src/lib/hub75/constants.py` (imported by
`driver.py`): the number of bitplanes `K`. -/
def COLOR_BIT_DEPTH : ℕ := 8

/-- CPython `int(q)` on a float: truncation toward zero. -/
def pyTrunc (q : ℚ) : ℤ := if 0 ≤ q then ⌊q⌋ else -⌊-q⌋

/-- `blanking_cycles = (blanking_time * system_frequency) // 1_000_000_000`
(first line of `Hub75Driver._update_timing_buffer`). -/
def blankingCycles (blankingTime : ℤ) (systemFrequency : ℕ) : ℤ :=
  Int.fdiv (blankingTime * systemFrequency) 1000000000

/-- `on_cycles = max(int(brightness * brightness_cycle), 0)` from
`_update_timing_buffer`.  CPython `int()` truncates toward zero; under the
outer `max` with `0` this agrees with `⌊·⌋` for every argument sign. -/
def onCycles (brightness : ℚ) (brightnessCycle : ℕ) : ℤ :=
  max ⌊brightness * brightnessCycle⌋ 0

/-- `off_cycles = max(((brightness_cycle - on_cycles) // 2) + blanking_cycles, 0)`
from `_update_timing_buffer`. -/
def offCycles (brightness : ℚ) (brightnessCycle : ℕ) (blanking : ℤ) : ℤ :=
  max (Int.fdiv ((brightnessCycle : ℤ) - onCycles brightness brightnessCycle) 2 + blanking) 0

/-- `Hub75Driver._update_timing_buffer`: for each `bitframe_index < COLOR_BIT_DEPTH`
the loop computes `brightness_cycle = base_cycles << bitframe_index` and writes
`timing_buffer[2*i] = off_cycles`, `timing_buffer[2*i + 1] = on_cycles`. -/
def updateTimingBuffer (baseCycles : ℕ) (brightness : ℚ) (blankingTime : ℤ)
    (systemFrequency : ℕ) : List ℤ :=
  (List.range COLOR_BIT_DEPTH).foldl
    (fun buf bitframeIndex =>
      let brightnessCycle := baseCycles <<< bitframeIndex
      buf ++ [offCycles brightness brightnessCycle (blankingCycles blankingTime systemFrequency),
              onCycles brightness brightnessCycle])
    []

/-- Per-row / per-bitplane overhead constants of
`Hub75Driver._estimate_refresh_rate` (cycle counts of the PIO programs). -/
def ADDRESS_DISPLAY_OVERHEAD_CYCLES : ℕ := 8

def ADDRESS_HANDSHAKE_OVERHEAD_CYCLES : ℕ := 2

def DATA_HANDSHAKE_OVERHEAD_CYCLES : ℕ := 2

def DATA_RELOAD_OVERHEAD_CYCLES : ℕ := 1

def DATA_CYCLES_PER_PIXEL : ℕ := 2

def BITPLANE_TRANSITION_EXTRA_CYCLES : ℕ := 3

/-- The driver parameters that `_estimate_refresh_rate` reads from `self`
(`row_address_count = 1 << address_bit_count`, `_shift_register_depth`,
`_data_frequency`) together with the explicit arguments it is called with in
`set_target_refresh_rate` (`brightness`, `blanking_time`,
`system_frequency`). -/
structure TimingConfig where
  rowAddressCount : ℕ
  shiftRegisterDepth : ℕ
  dataFrequency : ℕ
  systemFrequency : ℕ
  brightness : ℚ
  blankingTime : ℤ

/-- `data_clock_ratio = system_frequency / (data_frequency * 2)` from
`_estimate_refresh_rate`. -/
def dataClockRatio (cfg : TimingConfig) : ℚ :=
  (cfg.systemFrequency : ℚ) / (cfg.dataFrequency * 2)

/-- `data_transfer_cycles` from `_estimate_refresh_rate`. -/
def dataTransferCycles (cfg : TimingConfig) : ℚ :=
  (DATA_RELOAD_OVERHEAD_CYCLES + DATA_CYCLES_PER_PIXEL * cfg.shiftRegisterDepth) *
    dataClockRatio cfg

/-- `handshake_cycles` from `_estimate_refresh_rate`. -/
def handshakeCycles (cfg : TimingConfig) : ℚ :=
  ADDRESS_HANDSHAKE_OVERHEAD_CYCLES + DATA_HANDSHAKE_OVERHEAD_CYCLES * dataClockRatio cfg

/-- `address_display_cycles = on_cycles + 2 * off_cycles +
ADDRESS_DISPLAY_OVERHEAD_CYCLES` for one bitplane, from
`_estimate_refresh_rate`. -/
def addressDisplayCycles (cfg : TimingConfig) (baseCycles bitplaneIndex : ℕ) : ℚ :=
  (onCycles cfg.brightness (baseCycles <<< bitplaneIndex) : ℚ) +
    2 * (offCycles cfg.brightness (baseCycles <<< bitplaneIndex)
      (blankingCycles cfg.blankingTime cfg.systemFrequency) : ℚ) +
    ADDRESS_DISPLAY_OVERHEAD_CYCLES

/-- `row_cycles = max(address_display_cycles, data_transfer_cycles) +
handshake_cycles` from `_estimate_refresh_rate`. -/
def rowCycles (cfg : TimingConfig) (baseCycles bitplaneIndex : ℕ) : ℚ :=
  max (addressDisplayCycles cfg baseCycles bitplaneIndex) (dataTransferCycles cfg) +
    handshakeCycles cfg

/-- `total_frame_cycles`: the loop of `_estimate_refresh_rate`, followed by
the `+= BITPLANE_TRANSITION_EXTRA_CYCLES * COLOR_BIT_DEPTH` correction. -/
def totalFrameCycles (cfg : TimingConfig) (baseCycles : ℕ) : ℚ :=
  (List.range COLOR_BIT_DEPTH).foldl
    (fun acc bitplaneIndex =>
      acc + cfg.rowAddressCount * rowCycles cfg baseCycles bitplaneIndex)
    0
  + BITPLANE_TRANSITION_EXTRA_CYCLES * COLOR_BIT_DEPTH

/-- `Hub75Driver._estimate_refresh_rate(base_cycles, brightness, blanking_time,
system_frequency)`, floats modelled as exact rationals. -/
def estimateRefreshRate (cfg : TimingConfig) (baseCycles : ℕ) : ℚ :=
  if totalFrameCycles cfg baseCycles ≤ 0 then 0
  else cfg.systemFrequency / totalFrameCycles cfg baseCycles

/-- The `while estimate(search_upper_bound) > target: search_upper_bound *= 2`
loop of `set_target_refresh_rate`, with explicit fuel (the Python loop has no
built-in bound; `none` models non-termination within the given fuel). -/
def expandUpperBound (cfg : TimingConfig) (target : ℚ) :
    ℕ → ℕ → Option ℕ
  | 0, upperBound =>
      if target < estimateRefreshRate cfg upperBound then none else some upperBound
  | fuel + 1, upperBound =>
      if target < estimateRefreshRate cfg upperBound then
        expandUpperBound cfg target fuel (upperBound * 2)
      else some upperBound

/-- The binary-search loop of `set_target_refresh_rate`:
`while lower < upper: mid := (lower+upper)//2; if estimate(mid) > target then
lower := mid+1 else upper := mid`. -/
def binarySearchLoop (cfg : TimingConfig) (target : ℚ)
    (lowerBound upperBound : ℕ) : ℕ :=
  if lowerBound < upperBound then
    let midpoint := (lowerBound + upperBound) / 2
    if target < estimateRefreshRate cfg midpoint then
      binarySearchLoop cfg target (midpoint + 1) upperBound
    else
      binarySearchLoop cfg target lowerBound midpoint
  else lowerBound
  termination_by upperBound - lowerBound
  decreasing_by
  · omega
  · have : (lowerBound + upperBound) / 2 < upperBound := Nat.div_lt_of_lt_mul (by omega)
    omega

/-- `Hub75Driver.set_target_refresh_rate`, returning the committed
`base_cycles` together with the returned (achieved) refresh rate.  `none`
models the Python-level failures: `ZeroDivisionError` when
`int(target * row_address_count * bitplane_sum) == 0`, and exhaustion of the
doubling-loop fuel. -/
def setTargetRefreshRate (cfg : TimingConfig) (fuel : ℕ) (target : ℚ) :
    Option (ℕ × ℚ) :=
  let maximumRefreshRate := estimateRefreshRate cfg 1
  if maximumRefreshRate ≤ target then some (1, maximumRefreshRate)
  else
    let bitplaneSum : ℕ := (1 <<< COLOR_BIT_DEPTH) - 1
    let denominator := pyTrunc (target * cfg.rowAddressCount * bitplaneSum)
    if denominator = 0 then none
    else
      let estimatedBaseCycles := Int.fdiv cfg.systemFrequency denominator
      let searchUpperBound : ℕ := (max (estimatedBaseCycles * 2) 2).toNat
      match expandUpperBound cfg target fuel searchUpperBound with
      | none => none
      | some upperBound =>
        let baseCycles := binarySearchLoop cfg target 1 upperBound
        let rateAtCandidate := estimateRefreshRate cfg baseCycles
        let committed :=
          if 1 < baseCycles then
            let rateAboveTarget := estimateRefreshRate cfg (baseCycles - 1)
            if rateAboveTarget - target ≤ target - rateAtCandidate then baseCycles - 1
            else baseCycles
          else baseCycles
        some (committed, estimateRefreshRate cfg committed)

/-- The state of a `Hub75Driver` instance relevant to buffers, brightness and
timing.  `buffers` models `self._buffers` (only indices `0` and `1` are used);
`addressOf` models `uctypes.addressof` on the two buffer objects (fixed for
the lifetime of the driver); `activeBufferAddressPointer` models
`self._active_buffer_address_pointer[0]`, the single 32-bit cell read by the
control DMA. -/
structure Hub75Driver where
  addressBitCount : ℕ
  shiftRegisterDepth : ℕ
  dataFrequency : ℕ
  systemFrequency : ℕ
  brightness : ℚ
  blankingTime : ℤ
  gamma : ℚ
  baseCycles : ℕ
  timingBuffer : List ℤ
  buffers : ℕ → List ℕ
  activeBufferIndex : ℕ
  activeBufferAddressPointer : ℕ
  addressOf : ℕ → ℕ

/-- `row_address_count = 1 << address_bit_count`. -/
def Hub75Driver.rowAddressCount (d : Hub75Driver) : ℕ := 1 <<< d.addressBitCount

/-- The `TimingConfig` view of a driver: what `_estimate_refresh_rate` reads. -/
def Hub75Driver.timingConfig (d : Hub75Driver) : TimingConfig :=
  ⟨d.rowAddressCount, d.shiftRegisterDepth, d.dataFrequency, d.systemFrequency,
    d.brightness, d.blankingTime⟩

/-- `Hub75Driver.flip`:
`self._active_buffer_index = 1 - self._active_buffer_index;
self._active_buffer_address_pointer[0] = uctypes.addressof(self._active_buffer)`
where `_active_buffer = self._buffers[self._active_buffer_index]`. -/
def Hub75Driver.flip (d : Hub75Driver) : Hub75Driver :=
  { d with
    activeBufferIndex := 1 - d.activeBufferIndex,
    activeBufferAddressPointer := d.addressOf (1 - d.activeBufferIndex) }

/-- `self._inactive_buffer` is `self._buffers[1 - self._active_buffer_index]`. -/
def Hub75Driver.inactiveBufferIndex (d : Hub75Driver) : ℕ := 1 - d.activeBufferIndex

/-- `Hub75Driver.clear` calls `native.clear(self._inactive_buffer)`.
Modelled from the spec: the body of `native.clear` (a precompiled `.mpy`
module absent from `src/`) writes zeros into the buffer it is given
(`clear()` — writes zeros to the back buffer); the choice of buffer
(`self._inactive_buffer`) is from `driver.py`. -/
def Hub75Driver.clear (d : Hub75Driver) : Hub75Driver :=
  { d with
    buffers := Function.update d.buffers d.inactiveBufferIndex
      (List.replicate ((d.buffers d.inactiveBufferIndex).length) 0) }

/-- `Hub75Driver.load_rgb888` calls
`native.load_rgb888(rgb888_data, self._inactive_buffer, self._gamma_lut)`.
Modelled from the spec: the body of `native.load_rgb888` (a precompiled
`.mpy` module absent from `src/`) rewrites the destination buffer from the
source pixels, abstracted here as an arbitrary rewriting function `encode`;
the choice of destination buffer (`self._inactive_buffer`) is from
`driver.py`. -/
def Hub75Driver.load_rgb888 (d : Hub75Driver) (encode : List ℕ → List ℕ) : Hub75Driver :=
  { d with
    buffers := Function.update d.buffers d.inactiveBufferIndex
      (encode (d.buffers d.inactiveBufferIndex)) }

/-- `Hub75Driver.set_brightness`: clamp, regenerate the timing buffer,
return the stored value. -/
def Hub75Driver.set_brightness (d : Hub75Driver) (brightness : ℚ) :
    Hub75Driver × ℚ :=
  let newBrightness := max 0 (min 1 brightness)
  ({ d with
      brightness := newBrightness,
      timingBuffer :=
        updateTimingBuffer d.baseCycles newBrightness d.blankingTime d.systemFrequency },
    newBrightness)

/-- `Hub75Driver.set_blanking_time`: clamp, regenerate the timing buffer,
return the stored value. -/
def Hub75Driver.set_blanking_time (d : Hub75Driver) (nanoseconds : ℤ) :
    Hub75Driver × ℤ :=
  let newBlankingTime := max 0 nanoseconds
  ({ d with
      blankingTime := newBlankingTime,
      timingBuffer :=
        updateTimingBuffer d.baseCycles d.brightness newBlankingTime d.systemFrequency },
    newBlankingTime)

/-- `Hub75Driver.set_target_refresh_rate` as a state transformer: commit the
found `base_cycles`, regenerate the timing buffer, return the achieved rate. -/
def Hub75Driver.set_target_refresh_rate (d : Hub75Driver) (fuel : ℕ)
    (target : ℚ) : Option (Hub75Driver × ℚ) :=
  match setTargetRefreshRate d.timingConfig fuel target with
  | none => none
  | some (committed, rate) =>
      some ({ d with
        baseCycles := committed,
        timingBuffer :=
          updateTimingBuffer committed d.brightness d.blankingTime d.systemFrequency },
        rate)

/-- `Hub75Driver.__init__` up to the state modelled here: clamp `gamma`,
`brightness` and `blanking_time`, run `set_target_refresh_rate`, then
allocate the two zeroed buffers of
`row_address_count * shift_register_depth * COLOR_BIT_DEPTH` bytes, start
with `active_buffer_index = 0` and point the active-pointer cell at buffer
`0`. -/
def Hub75Driver.init (fuel : ℕ) (addressBitCount shiftRegisterDepth : ℕ)
    (dataFrequency systemFrequency : ℕ) (brightness : ℚ) (blankingTime : ℤ)
    (gamma : ℚ) (targetRefreshRate : ℚ) (addressOf : ℕ → ℕ) :
    Option Hub75Driver :=
  let d0 : Hub75Driver :=
    { addressBitCount := addressBitCount
      shiftRegisterDepth := shiftRegisterDepth
      dataFrequency := dataFrequency
      systemFrequency := systemFrequency
      brightness := max 0 (min 1 brightness)
      blankingTime := max 0 blankingTime
      gamma := max 0 gamma
      baseCycles := 1
      timingBuffer := List.replicate (COLOR_BIT_DEPTH * 2) 0
      buffers := fun _ => []
      activeBufferIndex := 0
      activeBufferAddressPointer := 0
      addressOf := addressOf }
  match d0.set_target_refresh_rate fuel targetRefreshRate with
  | none => none
  | some (d1, _) =>
      let bufferSize := d1.rowAddressCount * shiftRegisterDepth * COLOR_BIT_DEPTH
      some { d1 with
        buffers := fun _ => List.replicate bufferSize 0
        activeBufferIndex := 0
        activeBufferAddressPointer := addressOf 0 }

end Driver

namespace Display

/-- `COLOR_BIT_DEPTH` from `src/src/lib/hub75/display.py`: this module
defines its own constant, `6`. -/
def COLOR_BIT_DEPTH : ℕ := 6

/-- One channel value as computed in `BitPlanes._load_ppm`: a raw byte
(`bytes_per_channel == 1`) or a big-endian byte pair (`bytes_per_channel == 2`,
used when `max_value >= 256`) read at `idx`, scaled by `* 255 // max_value`. -/
def channelValue (input : List ℕ) (maxValue bytesPerChannel idx : ℕ) : ℕ :=
  if bytesPerChannel = 1 then input.getD idx 0 * 255 / maxValue
  else ((input.getD idx 0 <<< 8) ||| input.getD (idx + 1) 0) * 255 / maxValue

/-- "Bitplane 0 (LSB)" byte of `BitPlanes._load_ppm`. -/
def bitplane0Byte (r1 g1 b1 r2 g2 b2 : ℕ) : ℕ :=
  (r1 <<< 5) &&& 0b10000000 |||
  (g1 <<< 4) &&& 0b01000000 |||
  (b1 <<< 3) &&& 0b00100000 |||
  (r2 <<< 2) &&& 0b00010000 |||
  (g2 <<< 1) &&& 0b00001000 |||
  b2 &&& 0b00000100

/-- "Bitplane 1" byte of `BitPlanes._load_ppm`. -/
def bitplane1Byte (r1 g1 b1 r2 g2 b2 : ℕ) : ℕ :=
  (r1 <<< 4) &&& 0b10000000 |||
  (g1 <<< 3) &&& 0b01000000 |||
  (b1 <<< 2) &&& 0b00100000 |||
  (r2 <<< 1) &&& 0b00010000 |||
  g2 &&& 0b00001000 |||
  (b2 >>> 1) &&& 0b00000100

/-- "Bitplane 2" byte of `BitPlanes._load_ppm`. -/
def bitplane2Byte (r1 g1 b1 r2 g2 b2 : ℕ) : ℕ :=
  (r1 <<< 3) &&& 0b10000000 |||
  (g1 <<< 2) &&& 0b01000000 |||
  (b1 <<< 1) &&& 0b00100000 |||
  r2 &&& 0b00010000 |||
  (g2 >>> 1) &&& 0b00001000 |||
  (b2 >>> 2) &&& 0b00000100

/-- "Bitplane 3" byte of `BitPlanes._load_ppm`. -/
def bitplane3Byte (r1 g1 b1 r2 g2 b2 : ℕ) : ℕ :=
  (r1 <<< 2) &&& 0b10000000 |||
  (g1 <<< 1) &&& 0b01000000 |||
  b1 &&& 0b00100000 |||
  (r2 >>> 1) &&& 0b00010000 |||
  (g2 >>> 2) &&& 0b00001000 |||
  (b2 >>> 3) &&& 0b00000100

/-- "Bitplane 4" byte of `BitPlanes._load_ppm`. -/
def bitplane4Byte (r1 g1 b1 r2 g2 b2 : ℕ) : ℕ :=
  (r1 <<< 1) &&& 0b10000000 |||
  g1 &&& 0b01000000 |||
  (b1 >>> 1) &&& 0b00100000 |||
  (r2 >>> 2) &&& 0b00010000 |||
  (g2 >>> 3) &&& 0b00001000 |||
  (b2 >>> 4) &&& 0b00000100

/-- "Bitplane 5 (MSB)" byte of `BitPlanes._load_ppm`. -/
def bitplane5Byte (r1 g1 b1 r2 g2 b2 : ℕ) : ℕ :=
  r1 &&& 0b10000000 |||
  (g1 >>> 1) &&& 0b01000000 |||
  (b1 >>> 2) &&& 0b00100000 |||
  (r2 >>> 3) &&& 0b00010000 |||
  (g2 >>> 4) &&& 0b00001000 |||
  (b2 >>> 5) &&& 0b00000100

/-- Dispatch on the bitplane index for the six unrolled stores of
`BitPlanes._load_ppm`. -/
def bitplaneByte : ℕ → ℕ → ℕ → ℕ → ℕ → ℕ → ℕ → ℕ
  | 0, r1, g1, b1, r2, g2, b2 => bitplane0Byte r1 g1 b1 r2 g2 b2
  | 1, r1, g1, b1, r2, g2, b2 => bitplane1Byte r1 g1 b1 r2 g2 b2
  | 2, r1, g1, b1, r2, g2, b2 => bitplane2Byte r1 g1 b1 r2 g2 b2
  | 3, r1, g1, b1, r2, g2, b2 => bitplane3Byte r1 g1 b1 r2 g2 b2
  | 4, r1, g1, b1, r2, g2, b2 => bitplane4Byte r1 g1 b1 r2 g2 b2
  | 5, r1, g1, b1, r2, g2, b2 => bitplane5Byte r1 g1 b1 r2 g2 b2
  | _ + 6, _, _, _, _, _, _ => 0

/-- The byte written for pair index `j` on bitplane `p`
(channel fetch as in the loop body of `BitPlanes._load_ppm`). -/
def pairPlaneByte (input : List ℕ) (maxValue bytesPerChannel bottomOffset j p : ℕ) : ℕ :=
  bitplaneByte p
    (channelValue input maxValue bytesPerChannel (3 * bytesPerChannel * j))
    (channelValue input maxValue bytesPerChannel (3 * bytesPerChannel * j + bytesPerChannel))
    (channelValue input maxValue bytesPerChannel (3 * bytesPerChannel * j + 2 * bytesPerChannel))
    (channelValue input maxValue bytesPerChannel (3 * bytesPerChannel * j + bottomOffset))
    (channelValue input maxValue bytesPerChannel (3 * bytesPerChannel * j + bottomOffset + bytesPerChannel))
    (channelValue input maxValue bytesPerChannel (3 * bytesPerChannel * j + bottomOffset + 2 * bytesPerChannel))

/-- One iteration of the `while input_index < bottom_offset` loop of
`BitPlanes._load_ppm`: fetch the six channel values of pair `pairIndex`
(`input_index = 3 * bytes_per_channel * pairIndex`, bottom pixel at
`input_index + bottom_offset`) and perform the six unrolled stores at
`bitplane_offset + bitplane_size * p` for `p = 0..5`
(`bitplane_offset = pairIndex`). -/
def writePair (input : List ℕ) (maxValue bytesPerChannel bottomOffset bitplaneSize : ℕ)
    (output : List ℕ) (pairIndex : ℕ) : List ℕ :=
  (((((output.set pairIndex
    (pairPlaneByte input maxValue bytesPerChannel bottomOffset pairIndex 0)).set
      (pairIndex + bitplaneSize)
    (pairPlaneByte input maxValue bytesPerChannel bottomOffset pairIndex 1)).set
      (pairIndex + bitplaneSize * 2)
    (pairPlaneByte input maxValue bytesPerChannel bottomOffset pairIndex 2)).set
      (pairIndex + bitplaneSize * 3)
    (pairPlaneByte input maxValue bytesPerChannel bottomOffset pairIndex 3)).set
      (pairIndex + bitplaneSize * 4)
    (pairPlaneByte input maxValue bytesPerChannel bottomOffset pairIndex 4)).set
      (pairIndex + bitplaneSize * 5)
    (pairPlaneByte input maxValue bytesPerChannel bottomOffset pairIndex 5)

/-- `BitPlanes._load_ppm(input_data, input_size, output_data, output_size,
max_value)` (viper): `bytes_per_channel = 2 if max_value >= 256 else 1`,
`bitplane_size = output_size // COLOR_BIT_DEPTH`,
`bottom_offset = input_size // 2`; the loop runs while
`input_index < bottom_offset` advancing by `3 * bytes_per_channel`, i.e.
`⌈bottom_offset / (3 * bytes_per_channel)⌉` iterations, pair `j` reading at
`input_index = 3 * bytes_per_channel * j`. -/
def loadPpmInner (input : List ℕ) (inputSize : ℕ) (output : List ℕ)
    (outputSize maxValue : ℕ) : List ℕ :=
  let bytesPerChannel := if 256 ≤ maxValue then 2 else 1
  let bitplaneSize := outputSize / COLOR_BIT_DEPTH
  let bottomOffset := inputSize / 2
  let step := 3 * bytesPerChannel
  let pairCount := (bottomOffset + step - 1) / step
  (List.range pairCount).foldl
    (writePair input maxValue bytesPerChannel bottomOffset bitplaneSize) output

/-- `PPMImage` (`src/src/lib/hub75/image.py`): the fields `load_ppm` reads. -/
structure PPMImage where
  magicNumber : String
  width : ℕ
  height : ℕ
  maxValue : Option ℕ
  imageData : List ℕ

/-- `BitPlanes` (`src/src/lib/hub75/display.py`). -/
structure BitPlanes where
  width : ℕ
  height : ℕ
  bitframeData : List ℕ

/-- `BitPlanes.__init__`: a zeroed buffer of
`(width * height // 2) * COLOR_BIT_DEPTH` bytes. -/
def BitPlanes.init (width height : ℕ) : BitPlanes :=
  ⟨width, height, List.replicate ((width * height / 2) * COLOR_BIT_DEPTH) 0⟩

/-- Result of `BitPlanes.load_ppm`: the raised `ValueError` (if any) and the
state of `self._bitframe_data` afterwards (the Python method raises before
any write, so a raise leaves the buffer untouched). -/
structure LoadResult where
  error : Option String
  bitframeData : List ℕ

/-- `BitPlanes.load_ppm`: the four validation checks in source order,
then the `_load_ppm` call on the internal buffer. -/
def BitPlanes.load_ppm (bp : BitPlanes) (ppm : PPMImage) : LoadResult :=
  if ppm.width ≠ bp.width ∨ ppm.height ≠ bp.height then
    ⟨some "Unexpected PPM dimensions", bp.bitframeData⟩
  else if ppm.magicNumber ≠ "P6" then
    ⟨some "Unsupported PPM format", bp.bitframeData⟩
  else
    match ppm.maxValue with
    | none => ⟨some "PPM max value is not defined", bp.bitframeData⟩
    | some maxValue =>
        let expectedByteCount :=
          (if 256 ≤ maxValue then 2 else 1) * ppm.width * ppm.height * 3
        if ppm.imageData.length ≠ expectedByteCount then
          ⟨some "Unexpected PPM data byte count", bp.bitframeData⟩
        else
          ⟨none,
            loadPpmInner ppm.imageData ppm.imageData.length bp.bitframeData
              bp.bitframeData.length maxValue⟩

end Display

namespace Frame

/-- `MatrixFrame` (`src/src/lib/hub75/matrix_frame.py`). -/
structure MatrixFrame where
  data : List ℕ
  width : ℕ
  height : ℕ

/-- `MatrixFrame.__init__`: requires `len(data) == width * height * 3`
(1 byte per pixel per RGB channel), else raises `ValueError`. -/
def MatrixFrame.init (data : List ℕ) (width height : ℕ) :
    Except String MatrixFrame :=
  if width * height * 3 ≠ data.length then
    Except.error "Expected width * height * 3 bytes"
  else Except.ok ⟨data, width, height⟩

end Frame

namespace Driver

theorem updateTimingBuffer_eq (baseCycles : ℕ) (brightness : ℚ) (blankingTime : ℤ)
    (systemFrequency : ℕ) :
    updateTimingBuffer baseCycles brightness blankingTime systemFrequency =
      let bl := blankingCycles blankingTime systemFrequency
      [offCycles brightness (baseCycles <<< 0) bl, onCycles brightness (baseCycles <<< 0),
       offCycles brightness (baseCycles <<< 1) bl, onCycles brightness (baseCycles <<< 1),
       offCycles brightness (baseCycles <<< 2) bl, onCycles brightness (baseCycles <<< 2),
       offCycles brightness (baseCycles <<< 3) bl, onCycles brightness (baseCycles <<< 3),
       offCycles brightness (baseCycles <<< 4) bl, onCycles brightness (baseCycles <<< 4),
       offCycles brightness (baseCycles <<< 5) bl, onCycles brightness (baseCycles <<< 5),
       offCycles brightness (baseCycles <<< 6) bl, onCycles brightness (baseCycles <<< 6),
       offCycles brightness (baseCycles <<< 7) bl, onCycles brightness (baseCycles <<< 7)] := by
  simp [updateTimingBuffer, COLOR_BIT_DEPTH, List.range_succ]

theorem onCycles_nonneg (b : ℚ) (c : ℕ) : 0 ≤ onCycles b c :=
  le_max_right _ _

theorem offCycles_nonneg (b : ℚ) (c : ℕ) (bl : ℤ) : 0 ≤ offCycles b c bl :=
  le_max_right _ _

theorem onCycles_eq_floor (b : ℚ) (c : ℕ) (hb : 0 ≤ b) :
    onCycles b c = ⌊b * c⌋ := by
  unfold onCycles
  exact max_eq_left (Int.floor_nonneg.mpr (by positivity))

theorem onCycles_le_cycle (b : ℚ) (c : ℕ) (hb : b ≤ 1) :
    onCycles b c ≤ c := by
  unfold onCycles
  have h1 : b * c ≤ (c : ℚ) := by
    calc b * (c : ℚ) ≤ 1 * c := by
          exact mul_le_mul_of_nonneg_right hb (by positivity)
    _ = c := one_mul _
  have h2 : ⌊b * (c : ℚ)⌋ ≤ (c : ℤ) := by
    have := Int.floor_le_floor h1
    simpa using this
  exact max_le h2 (by positivity)

theorem blankingCycles_nonneg (bt : ℤ) (sys : ℕ) (h : 0 ≤ bt) :
    0 ≤ blankingCycles bt sys := by
  unfold blankingCycles
  exact Int.fdiv_nonneg (by positivity) (by norm_num)

/-- The on/off cycle counts generated for one bitplane window recover the
window plus twice the blanking pad up to the single cycle lost when the
halving of `window − on` rounds down. -/
theorem onOff_sandwich (b : ℚ) (c : ℕ) (bl : ℤ)
    (hb0 : 0 ≤ b) (hb1 : b ≤ 1) (hbl : 0 ≤ bl) :
    (c : ℤ) + 2 * bl - 1 ≤ onCycles b c + 2 * offCycles b c bl ∧
      onCycles b c + 2 * offCycles b c bl ≤ (c : ℤ) + 2 * bl := by
  have hon0 : 0 ≤ onCycles b c := onCycles_nonneg b c
  have honc : onCycles b c ≤ c := onCycles_le_cycle b c hb1
  have hfd : Int.fdiv ((c : ℤ) - onCycles b c) 2 = ((c : ℤ) - onCycles b c) / 2 :=
    Int.fdiv_eq_ediv _ (by norm_num)
  have hoff : offCycles b c bl = ((c : ℤ) - onCycles b c) / 2 + bl := by
    unfold offCycles
    rw [hfd]
    exact max_eq_left (by
      have : 0 ≤ ((c : ℤ) - onCycles b c) / 2 := Int.ediv_nonneg (by omega) (by norm_num)
      omega)
  rw [hoff]
  omega

theorem getD_updateTimingBuffer_on (base : ℕ) (b : ℚ) (bt : ℤ) (sys : ℕ)
    (i : ℕ) (hi : i < COLOR_BIT_DEPTH) :
    (updateTimingBuffer base b bt sys).getD (2 * i + 1) 0 =
      onCycles b (base <<< i) := by
  have hi8 : i < 8 := hi
  rw [updateTimingBuffer_eq]
  interval_cases i <;> rfl

theorem getD_updateTimingBuffer_off (base : ℕ) (b : ℚ) (bt : ℤ) (sys : ℕ)
    (i : ℕ) (hi : i < COLOR_BIT_DEPTH) :
    (updateTimingBuffer base b bt sys).getD (2 * i) 0 =
      offCycles b (base <<< i) (blankingCycles bt sys) := by
  have hi8 : i < 8 := hi
  rw [updateTimingBuffer_eq]
  interval_cases i <;> rfl

end Driver

end Hub75

namespace Hub75

namespace Driver

theorem foldl_add_eq_sum (f : ℕ → ℚ) :
    ∀ (l : List ℕ) (a : ℚ), l.foldl (fun acc i => acc + f i) a = a + (l.map f).sum := by
  intro l
  induction l with
  | nil => intro a; simp
  | cons x xs ih =>
      intro a
      simp [ih]
      ring

theorem dataClockRatio_nonneg (cfg : TimingConfig) : 0 ≤ dataClockRatio cfg := by
  unfold dataClockRatio
  positivity

theorem dataTransferCycles_nonneg (cfg : TimingConfig) : 0 ≤ dataTransferCycles cfg := by
  unfold dataTransferCycles
  have := dataClockRatio_nonneg cfg
  positivity

theorem handshakeCycles_nonneg (cfg : TimingConfig) : 0 ≤ handshakeCycles cfg := by
  unfold handshakeCycles
  have := dataClockRatio_nonneg cfg
  positivity

theorem addressDisplayCycles_nonneg (cfg : TimingConfig) (base i : ℕ) :
    0 ≤ addressDisplayCycles cfg base i := by
  unfold addressDisplayCycles
  have h1 := onCycles_nonneg cfg.brightness (base <<< i)
  have h2 := offCycles_nonneg cfg.brightness (base <<< i)
    (blankingCycles cfg.blankingTime cfg.systemFrequency)
  have h1q : (0 : ℚ) ≤ onCycles cfg.brightness (base <<< i) := by exact_mod_cast h1
  have h2q : (0 : ℚ) ≤ offCycles cfg.brightness (base <<< i)
      (blankingCycles cfg.blankingTime cfg.systemFrequency) := by exact_mod_cast h2
  have : (0 : ℚ) ≤ (ADDRESS_DISPLAY_OVERHEAD_CYCLES : ℚ) := by positivity
  linarith

theorem rowCycles_nonneg (cfg : TimingConfig) (base i : ℕ) :
    0 ≤ rowCycles cfg base i := by
  unfold rowCycles
  have h1 := addressDisplayCycles_nonneg cfg base i
  have h2 := handshakeCycles_nonneg cfg
  have h3 : addressDisplayCycles cfg base i ≤
      max (addressDisplayCycles cfg base i) (dataTransferCycles cfg) := le_max_left _ _
  linarith

theorem totalFrameCycles_pos (cfg : TimingConfig) (base : ℕ) :
    0 < totalFrameCycles cfg base := by
  unfold totalFrameCycles
  rw [foldl_add_eq_sum]
  have hsum : (0 : ℚ) ≤
      ((List.range COLOR_BIT_DEPTH).map
        (fun i => (cfg.rowAddressCount : ℚ) * rowCycles cfg base i)).sum := by
    apply List.sum_nonneg
    intro x hx
    simp only [List.mem_map] at hx
    obtain ⟨i, _, rfl⟩ := hx
    have := rowCycles_nonneg cfg base i
    positivity
  have hextra : (0 : ℚ) <
      (BITPLANE_TRANSITION_EXTRA_CYCLES : ℚ) * (COLOR_BIT_DEPTH : ℚ) := by
    norm_num [BITPLANE_TRANSITION_EXTRA_CYCLES, COLOR_BIT_DEPTH]
  linarith

/-- Over one bitplane window, `on + 2·off` is monotone in the window size. -/
theorem onOffSum_mono (b : ℚ) (bl : ℤ) (hb0 : 0 ≤ b) (hb1 : b ≤ 1) (hbl : 0 ≤ bl)
    {c1 c2 : ℕ} (h : c1 ≤ c2) :
    onCycles b c1 + 2 * offCycles b c1 bl ≤ onCycles b c2 + 2 * offCycles b c2 bl := by
  rcases Nat.eq_or_lt_of_le h with rfl | hlt
  · exact le_refl _
  · have s1 := onOff_sandwich b c1 bl hb0 hb1 hbl
    have s2 := onOff_sandwich b c2 bl hb0 hb1 hbl
    have hc : (c1 : ℤ) + 1 ≤ c2 := by exact_mod_cast hlt
    omega

theorem addressDisplayCycles_mono (cfg : TimingConfig)
    (hb0 : 0 ≤ cfg.brightness) (hb1 : cfg.brightness ≤ 1) (hbl : 0 ≤ cfg.blankingTime)
    {c1 c2 : ℕ} (h : c1 ≤ c2) (i : ℕ) :
    addressDisplayCycles cfg c1 i ≤ addressDisplayCycles cfg c2 i := by
  unfold addressDisplayCycles
  have hshift : c1 <<< i ≤ c2 <<< i := by
    simp only [Nat.shiftLeft_eq]
    exact Nat.mul_le_mul_right _ h
  have hmono := onOffSum_mono cfg.brightness
    (blankingCycles cfg.blankingTime cfg.systemFrequency) hb0 hb1
    (blankingCycles_nonneg _ _ hbl) hshift
  have hmq : ((onCycles cfg.brightness (c1 <<< i) +
      2 * offCycles cfg.brightness (c1 <<< i)
        (blankingCycles cfg.blankingTime cfg.systemFrequency) : ℤ) : ℚ) ≤
      ((onCycles cfg.brightness (c2 <<< i) +
      2 * offCycles cfg.brightness (c2 <<< i)
        (blankingCycles cfg.blankingTime cfg.systemFrequency) : ℤ) : ℚ) := by
    exact_mod_cast hmono
  push_cast at hmq
  linarith

theorem rowCycles_mono (cfg : TimingConfig)
    (hb0 : 0 ≤ cfg.brightness) (hb1 : cfg.brightness ≤ 1) (hbl : 0 ≤ cfg.blankingTime)
    {c1 c2 : ℕ} (h : c1 ≤ c2) (i : ℕ) :
    rowCycles cfg c1 i ≤ rowCycles cfg c2 i := by
  unfold rowCycles
  have := addressDisplayCycles_mono cfg hb0 hb1 hbl h i
  exact add_le_add_right (max_le_max this (le_refl _)) _

theorem totalFrameCycles_mono (cfg : TimingConfig)
    (hb0 : 0 ≤ cfg.brightness) (hb1 : cfg.brightness ≤ 1) (hbl : 0 ≤ cfg.blankingTime)
    {c1 c2 : ℕ} (h : c1 ≤ c2) :
    totalFrameCycles cfg c1 ≤ totalFrameCycles cfg c2 := by
  unfold totalFrameCycles
  rw [foldl_add_eq_sum, foldl_add_eq_sum]
  have hsum : ((List.range COLOR_BIT_DEPTH).map
        (fun i => (cfg.rowAddressCount : ℚ) * rowCycles cfg c1 i)).sum ≤
      ((List.range COLOR_BIT_DEPTH).map
        (fun i => (cfg.rowAddressCount : ℚ) * rowCycles cfg c2 i)).sum := by
    apply List.sum_le_sum
    intro i _
    exact mul_le_mul_of_nonneg_left (rowCycles_mono cfg hb0 hb1 hbl h i) (by positivity)
  linarith

theorem estimateRefreshRate_eq_div (cfg : TimingConfig) (base : ℕ) :
    estimateRefreshRate cfg base =
      (cfg.systemFrequency : ℚ) / totalFrameCycles cfg base := by
  unfold estimateRefreshRate
  rw [if_neg (not_le.mpr (totalFrameCycles_pos cfg base))]

theorem estimateRefreshRate_antitone (cfg : TimingConfig)
    (hb0 : 0 ≤ cfg.brightness) (hb1 : cfg.brightness ≤ 1) (hbl : 0 ≤ cfg.blankingTime)
    {c1 c2 : ℕ} (h : c1 ≤ c2) :
    estimateRefreshRate cfg c2 ≤ estimateRefreshRate cfg c1 := by
  rw [estimateRefreshRate_eq_div, estimateRefreshRate_eq_div]
  apply div_le_div_of_nonneg_left (by positivity) (totalFrameCycles_pos cfg c1)
  exact totalFrameCycles_mono cfg hb0 hb1 hbl h

/-- Every upper bound produced by the doubling loop has estimated rate at
most the target, and is no smaller than the initial bound. -/
theorem expandUpperBound_spec (cfg : TimingConfig) (target : ℚ) :
    ∀ (fuel u u' : ℕ), expandUpperBound cfg target fuel u = some u' →
      estimateRefreshRate cfg u' ≤ target ∧ u ≤ u' := by
  intro fuel
  induction fuel with
  | zero =>
      intro u u' h
      unfold expandUpperBound at h
      by_cases hc : target < estimateRefreshRate cfg u
      · simp [hc] at h
      · simp [hc] at h
        subst h
        exact ⟨not_lt.mp hc, le_refl u⟩
  | succ fuel ih =>
      intro u u' h
      unfold expandUpperBound at h
      by_cases hc : target < estimateRefreshRate cfg u
      · simp [hc] at h
        have := ih (u * 2) u' h
        exact ⟨this.1, by omega⟩
      · simp [hc] at h
        subst h
        exact ⟨not_lt.mp hc, le_refl u⟩

/-- The binary-search loop of `set_target_refresh_rate` returns the least
index in `[lower, upper]` whose estimated rate is at most the target,
provided the estimate is antitone and the upper bound already meets the
target. -/
theorem binarySearchLoop_spec (cfg : TimingConfig) (target : ℚ)
    (hanti : ∀ j k : ℕ, j ≤ k →
      estimateRefreshRate cfg k ≤ estimateRefreshRate cfg j) :
    ∀ (n lo hi : ℕ), hi - lo ≤ n → lo ≤ hi →
      estimateRefreshRate cfg hi ≤ target →
      lo ≤ binarySearchLoop cfg target lo hi ∧
        binarySearchLoop cfg target lo hi ≤ hi ∧
        estimateRefreshRate cfg (binarySearchLoop cfg target lo hi) ≤ target ∧
        ∀ j, lo ≤ j → j < binarySearchLoop cfg target lo hi →
          target < estimateRefreshRate cfg j := by
  intro n
  induction n with
  | zero =>
      intro lo hi hn hle hhi
      have : lo = hi := by omega
      subst this
      rw [binarySearchLoop]
      simp only [lt_irrefl, if_false]
      exact ⟨le_refl _, le_refl _, hhi, fun j h1 h2 => absurd (lt_of_le_of_lt h1 h2) (lt_irrefl _)⟩
  | succ n ih =>
      intro lo hi hn hle hhi
      by_cases hlt : lo < hi
      · rw [binarySearchLoop]
        simp only [hlt, if_true]
        have hmid1 : lo ≤ (lo + hi) / 2 := by omega
        have hmid2 : (lo + hi) / 2 < hi := by omega
        by_cases hc : target < estimateRefreshRate cfg ((lo + hi) / 2)
        · simp only [hc, if_true]
          have hrec := ih ((lo + hi) / 2 + 1) hi (by omega) (by omega) hhi
          refine ⟨by omega, hrec.2.1, hrec.2.2.1, ?_⟩
          intro j hj hjr
          by_cases hjm : j ≤ (lo + hi) / 2
          · exact lt_of_lt_of_le hc (hanti j ((lo + hi) / 2) hjm)
          · exact hrec.2.2.2 j (by omega) hjr
        · simp only [hc, if_false]
          have hm : estimateRefreshRate cfg ((lo + hi) / 2) ≤ target := not_lt.mp hc
          have hrec := ih lo ((lo + hi) / 2) (by omega) (by omega) hm
          exact ⟨hrec.1, le_trans hrec.2.1 (by omega), hrec.2.2.1, hrec.2.2.2⟩
      · rw [binarySearchLoop]
        simp only [hlt, if_false]
        have : lo = hi := by omega
        subst this
        exact ⟨le_refl _, le_refl _, hhi, fun j h1 h2 => absurd (lt_of_le_of_lt h1 h2) (lt_irrefl _)⟩

end Driver

namespace Display

theorem writePair_length (input : List ℕ) (maxValue bpc bottom S : ℕ)
    (out : List ℕ) (n : ℕ) :
    (writePair input maxValue bpc bottom S out n).length = out.length := by
  simp [writePair]

/-- The six stores of one loop iteration land at `n + S * p` (`p < 6`,
`S` the bitplane size) and do not touch any other in-range slot. -/
theorem writePair_getD (input : List ℕ) (maxValue bpc bottom S : ℕ)
    (out : List ℕ) (n j p : ℕ)
    (hlen : out.length = COLOR_BIT_DEPTH * S) (hn : n < S) (hj : j < S)
    (hp : p < COLOR_BIT_DEPTH) :
    (writePair input maxValue bpc bottom S out n).getD (j + S * p) 0 =
      if j = n then pairPlaneByte input maxValue bpc bottom n p
      else out.getD (j + S * p) 0 := by
  have hp6 : p < 6 := hp
  have hlen6 : out.length = 6 * S := hlen
  unfold writePair
  by_cases hjn : j = n
  · subst hjn
    rw [if_pos rfl]
    interval_cases p <;>
      (simp only [List.getD_eq_getElem?_getD, List.getElem?_set, List.length_set]
       repeat rw [if_neg (by omega)]
       rw [if_pos (by first | trivial | omega), if_pos (by omega)]
       simp)
  · rw [if_neg hjn]
    interval_cases p <;>
      (simp only [List.getD_eq_getElem?_getD, List.getElem?_set, List.length_set]
       repeat rw [if_neg (by omega)])

theorem foldl_writePair_length (input : List ℕ) (maxValue bpc bottom S : ℕ) :
    ∀ (l : List ℕ) (out : List ℕ),
      (l.foldl (writePair input maxValue bpc bottom S) out).length = out.length := by
  intro l
  induction l with
  | nil => intro out; rfl
  | cons x xs ih =>
      intro out
      simp only [List.foldl_cons]
      rw [ih, writePair_length]

/-- After `n ≤ S` loop iterations, slot `j + S * p` holds the byte of pair
`j`, bitplane `p`, when `j < n`, and is untouched otherwise. -/
theorem foldl_writePair_getD (input : List ℕ) (maxValue bpc bottom S : ℕ) :
    ∀ (n : ℕ) (out : List ℕ), n ≤ S → out.length = COLOR_BIT_DEPTH * S →
      ∀ (p : ℕ), p < COLOR_BIT_DEPTH → ∀ (j : ℕ), j < S →
      ((List.range n).foldl (writePair input maxValue bpc bottom S) out).getD
          (j + S * p) 0 =
        if j < n then pairPlaneByte input maxValue bpc bottom j p
        else out.getD (j + S * p) 0 := by
  intro n
  induction n with
  | zero =>
      intro out _ _ p _ j _
      rw [if_neg (by omega)]
      rfl
  | succ n ih =>
      intro out hn hlen p hp j hj
      rw [List.range_succ, List.foldl_append]
      simp only [List.foldl_cons, List.foldl_nil]
      rw [writePair_getD input maxValue bpc bottom S _ n j p
        (by rw [foldl_writePair_length]; exact hlen) (by omega) hj hp]
      by_cases hjn : j = n
      · rw [if_pos hjn, if_pos (by omega)]
        rw [hjn]
      · rw [if_neg hjn]
        rw [ih out (by omega) hlen p hp j hj]
        by_cases hjlt : j < n
        · rw [if_pos hjlt, if_pos (by omega)]
        · rw [if_neg hjlt, if_neg (by omega)]

/-- Element-level characterisation of `_load_ppm` on a well-sized image:
with `S = W · 2^A` pairs, the byte at `j + S * p` is the pair-`j`,
bitplane-`p` byte. -/
theorem loadPpmInner_getD (input out : List ℕ) (maxValue S : ℕ)
    (hin : input.length = 2 * (3 * (if 256 ≤ maxValue then 2 else 1) * S))
    (hout : out.length = COLOR_BIT_DEPTH * S)
    (p : ℕ) (hp : p < COLOR_BIT_DEPTH) (j : ℕ) (hj : j < S) :
    (loadPpmInner input input.length out out.length maxValue).getD (j + S * p) 0 =
      pairPlaneByte input maxValue (if 256 ≤ maxValue then 2 else 1)
        (input.length / 2) j p := by
  unfold loadPpmInner
  have hsize : out.length / COLOR_BIT_DEPTH = S := by
    rw [hout]
    exact Nat.mul_div_cancel_left S (by norm_num [COLOR_BIT_DEPTH])
  rw [hsize]
  by_cases hbig : 256 ≤ maxValue
  · simp only [hbig, if_true] at hin ⊢
    have hcount : (input.length / 2 + 3 * 2 - 1) / (3 * 2) = S := by omega
    rw [hcount]
    rw [foldl_writePair_getD input maxValue 2 (input.length / 2) S S out le_rfl hout p hp j hj]
    rw [if_pos hj]
  · simp only [hbig, if_false] at hin ⊢
    have hcount : (input.length / 2 + 3 * 1 - 1) / (3 * 1) = S := by omega
    rw [hcount]
    rw [foldl_writePair_getD input maxValue 1 (input.length / 2) S S out le_rfl hout p hp j hj]
    rw [if_pos hj]

/-- Bit semantics of the six unrolled stores: on bitplane `p`, output bits
7..2 carry bit `p + 2` of the scaled channel values R1,G1,B1,R2,G2,B2 —
LSB-first bitplane order (index 0 holds the lowest used bit, index 5 the
MSB). -/
theorem bitplaneByte_testBit (p : ℕ) (hp : p < 6) (r1 g1 b1 r2 g2 b2 : ℕ) :
    (bitplaneByte p r1 g1 b1 r2 g2 b2).testBit 7 = r1.testBit (p + 2) ∧
    (bitplaneByte p r1 g1 b1 r2 g2 b2).testBit 6 = g1.testBit (p + 2) ∧
    (bitplaneByte p r1 g1 b1 r2 g2 b2).testBit 5 = b1.testBit (p + 2) ∧
    (bitplaneByte p r1 g1 b1 r2 g2 b2).testBit 4 = r2.testBit (p + 2) ∧
    (bitplaneByte p r1 g1 b1 r2 g2 b2).testBit 3 = g2.testBit (p + 2) ∧
    (bitplaneByte p r1 g1 b1 r2 g2 b2).testBit 2 = b2.testBit (p + 2) := by
  interval_cases p <;>
    (refine ⟨?_, ?_, ?_, ?_, ?_, ?_⟩ <;>
      (simp only [bitplaneByte, bitplane0Byte, bitplane1Byte, bitplane2Byte, bitplane3Byte,
        bitplane4Byte, bitplane5Byte,
        Nat.testBit_lor, Nat.testBit_land, Nat.testBit_shiftLeft, Nat.testBit_shiftRight,
        show (0b10000000 : ℕ) = 2 ^ 7 by norm_num, show (0b01000000 : ℕ) = 2 ^ 6 by norm_num,
        show (0b00100000 : ℕ) = 2 ^ 5 by norm_num, show (0b00010000 : ℕ) = 2 ^ 4 by norm_num,
        show (0b00001000 : ℕ) = 2 ^ 3 by norm_num, show (0b00000100 : ℕ) = 2 ^ 2 by norm_num,
        Nat.testBit_two_pow]
       simp))

theorem bitplaneByte_low_bits (p r1 g1 b1 r2 g2 b2 : ℕ) :
    (bitplaneByte p r1 g1 b1 r2 g2 b2).testBit 0 = false ∧
    (bitplaneByte p r1 g1 b1 r2 g2 b2).testBit 1 = false := by
  match p with
  | 0 | 1 | 2 | 3 | 4 | 5 =>
    refine ⟨?_, ?_⟩ <;>
      simp only [bitplaneByte, bitplane0Byte, bitplane1Byte, bitplane2Byte, bitplane3Byte,
        bitplane4Byte, bitplane5Byte,
        Nat.testBit_lor, Nat.testBit_land, Nat.testBit_shiftLeft, Nat.testBit_shiftRight,
        show (0b10000000 : ℕ) = 2 ^ 7 by norm_num, show (0b01000000 : ℕ) = 2 ^ 6 by norm_num,
        show (0b00100000 : ℕ) = 2 ^ 5 by norm_num, show (0b00010000 : ℕ) = 2 ^ 4 by norm_num,
        show (0b00001000 : ℕ) = 2 ^ 3 by norm_num, show (0b00000100 : ℕ) = 2 ^ 2 by norm_num,
        Nat.testBit_two_pow] <;>
      simp
  | n + 6 =>
    exact ⟨show Nat.testBit 0 0 = false from rfl, show Nat.testBit 0 1 = false from rfl⟩

theorem bitplaneByte_mod_four (p r1 g1 b1 r2 g2 b2 : ℕ) :
    bitplaneByte p r1 g1 b1 r2 g2 b2 % 4 = 0 := by
  obtain ⟨h0, h1⟩ := bitplaneByte_low_bits p r1 g1 b1 r2 g2 b2
  rw [Nat.testBit_zero] at h0
  rw [show (1 : ℕ) = Nat.succ 0 from rfl, Nat.testBit_succ, Nat.testBit_zero] at h1
  simp only [decide_eq_false_iff_not] at h0 h1
  omega

theorem pairPlaneByte_mod_four (input : List ℕ) (maxValue bpc bottom j p : ℕ) :
    pairPlaneByte input maxValue bpc bottom j p % 4 = 0 :=
  bitplaneByte_mod_four p _ _ _ _ _ _

theorem writePair_mem_mod_four (input : List ℕ) (maxValue bpc bottom S : ℕ)
    (out : List ℕ) (n : ℕ) (hinv : ∀ b ∈ out, b % 4 = 0) :
    ∀ b ∈ writePair input maxValue bpc bottom S out n, b % 4 = 0 := by
  intro b hb
  unfold writePair at hb
  rcases List.mem_or_eq_of_mem_set hb with hb | rfl
  · rcases List.mem_or_eq_of_mem_set hb with hb | rfl
    · rcases List.mem_or_eq_of_mem_set hb with hb | rfl
      · rcases List.mem_or_eq_of_mem_set hb with hb | rfl
        · rcases List.mem_or_eq_of_mem_set hb with hb | rfl
          · rcases List.mem_or_eq_of_mem_set hb with hb | rfl
            · exact hinv b hb
            · exact pairPlaneByte_mod_four input maxValue bpc bottom n 0
          · exact pairPlaneByte_mod_four input maxValue bpc bottom n 1
        · exact pairPlaneByte_mod_four input maxValue bpc bottom n 2
      · exact pairPlaneByte_mod_four input maxValue bpc bottom n 3
    · exact pairPlaneByte_mod_four input maxValue bpc bottom n 4
  · exact pairPlaneByte_mod_four input maxValue bpc bottom n 5

theorem foldl_writePair_mem_mod_four (input : List ℕ) (maxValue bpc bottom S : ℕ) :
    ∀ (l : List ℕ) (out : List ℕ), (∀ b ∈ out, b % 4 = 0) →
      ∀ b ∈ l.foldl (writePair input maxValue bpc bottom S) out, b % 4 = 0 := by
  intro l
  induction l with
  | nil => intro out hinv; exact hinv
  | cons x xs ih =>
      intro out hinv
      simp only [List.foldl_cons]
      exact ih _ (writePair_mem_mod_four input maxValue bpc bottom S out x hinv)

theorem loadPpmInner_mem_mod_four (input : List ℕ) (inputSize : ℕ)
    (out : List ℕ) (outputSize maxValue : ℕ)
    (hinv : ∀ b ∈ out, b % 4 = 0) :
    ∀ b ∈ loadPpmInner input inputSize out outputSize maxValue, b % 4 = 0 := by
  intro b hb
  unfold loadPpmInner at hb
  exact foldl_writePair_mem_mod_four input maxValue _ _ _ _ out hinv b hb

theorem load_ppm_dims_mismatch (bp : BitPlanes) (ppm : PPMImage)
    (h : ppm.width ≠ bp.width ∨ ppm.height ≠ bp.height) :
    bp.load_ppm ppm = ⟨some "Unexpected PPM dimensions", bp.bitframeData⟩ := by
  simp only [BitPlanes.load_ppm]
  rw [if_pos h]

theorem load_ppm_format_mismatch (bp : BitPlanes) (ppm : PPMImage)
    (hw : ppm.width = bp.width) (hh : ppm.height = bp.height)
    (h : ppm.magicNumber ≠ "P6") :
    bp.load_ppm ppm = ⟨some "Unsupported PPM format", bp.bitframeData⟩ := by
  simp only [BitPlanes.load_ppm]
  rw [if_neg (by push_neg; exact ⟨hw, hh⟩), if_pos h]

theorem load_ppm_no_max_value (bp : BitPlanes) (ppm : PPMImage)
    (hw : ppm.width = bp.width) (hh : ppm.height = bp.height)
    (hm : ppm.magicNumber = "P6") (h : ppm.maxValue = none) :
    bp.load_ppm ppm = ⟨some "PPM max value is not defined", bp.bitframeData⟩ := by
  simp only [BitPlanes.load_ppm]
  rw [if_neg (by push_neg; exact ⟨hw, hh⟩), if_neg (by rw [hm]; exact fun hc => hc rfl), h]

/-- `load_ppm` after the dimension / format / max-value checks pass: only the
byte-count check remains before `_load_ppm` runs. -/
theorem load_ppm_checked (bp : BitPlanes) (ppm : PPMImage) (mv : ℕ)
    (hw : ppm.width = bp.width) (hh : ppm.height = bp.height)
    (hm : ppm.magicNumber = "P6") (hmv : ppm.maxValue = some mv) :
    bp.load_ppm ppm =
      if ppm.imageData.length ≠ (if 256 ≤ mv then 2 else 1) * ppm.width * ppm.height * 3 then
        ⟨some "Unexpected PPM data byte count", bp.bitframeData⟩
      else
        ⟨none, loadPpmInner ppm.imageData ppm.imageData.length bp.bitframeData
          bp.bitframeData.length mv⟩ := by
  simp only [BitPlanes.load_ppm]
  rw [if_neg (by push_neg; exact ⟨hw, hh⟩), if_neg (by rw [hm]; exact fun hc => hc rfl), hmv]

end Display

end Hub75

open Hub75 Hub75.Driver

/-- **C10.** For every target refresh rate at least the estimated rate at
`base_cycles = 1` (the maximum achievable rate), `set_target_refresh_rate`
commits `base_cycles = 1` and returns the maximum estimated rate, without
entering the upper-bound doubling or the binary search (the result does not
depend on the loop fuel). -/
theorem c10_unachievable_target_commits_fastest (cfg : TimingConfig) (fuel : ℕ)
    (target : ℚ) (h : estimateRefreshRate cfg 1 ≤ target) :
    setTargetRefreshRate cfg fuel target = some (1, estimateRefreshRate cfg 1) := by
  unfold setTargetRefreshRate
  simp [h]

/-- Witness for C10: a 1-row-pair, 1-column configuration at a 1 kHz system
clock, with target `3` above the maximum achievable rate `8/3`. -/
theorem c10_unachievable_target_commits_fastest_witness :
    setTargetRefreshRate ⟨1, 1, 500, 1000, 1, 0⟩ 7 3 =
      some (1, estimateRefreshRate ⟨1, 1, 500, 1000, 1, 0⟩ 1) :=
  c10_unachievable_target_commits_fastest ⟨1, 1, 500, 1000, 1, 0⟩ 7 3
    (by with_unfolding_all decide)

/-- **C4.** Whenever `set_target_refresh_rate` returns (no ZeroDivisionError,
enough doubling fuel), the returned rate is the estimate of the committed
`base_cycles`, and letting `c` be the smallest `base_cycles ≥ 1` whose
estimated refresh rate is at most the target: either `c = 1` (target at or
above the maximum rate) and `c` itself is committed, or the committed value
is `c − 1` or `c`, whichever estimated rate has minimum absolute distance to
the target. -/
theorem c4_set_target_refresh_rate_picks_closest (cfg : TimingConfig) (fuel : ℕ)
    (target : ℚ) (committed : ℕ) (rate : ℚ)
    (hb0 : 0 ≤ cfg.brightness) (hb1 : cfg.brightness ≤ 1)
    (hbl : 0 ≤ cfg.blankingTime)
    (hres : setTargetRefreshRate cfg fuel target = some (committed, rate)) :
    rate = estimateRefreshRate cfg committed ∧
      ∃ c : ℕ,
        IsLeast {n : ℕ | 1 ≤ n ∧ estimateRefreshRate cfg n ≤ target} c ∧
        ((c = 1 ∧ committed = 1) ∨
          (2 ≤ c ∧ (committed = c - 1 ∨ committed = c) ∧
            |estimateRefreshRate cfg committed - target| ≤
              |estimateRefreshRate cfg c - target| ∧
            |estimateRefreshRate cfg committed - target| ≤
              |estimateRefreshRate cfg (c - 1) - target|)) := by
  have hanti : ∀ j k : ℕ, j ≤ k →
      estimateRefreshRate cfg k ≤ estimateRefreshRate cfg j :=
    fun j k h => estimateRefreshRate_antitone cfg hb0 hb1 hbl h
  unfold setTargetRefreshRate at hres
  by_cases hmax : estimateRefreshRate cfg 1 ≤ target
  · simp only [hmax, if_true, Option.some.injEq, Prod.mk.injEq] at hres
    obtain ⟨hc, hr⟩ := hres
    subst hc
    refine ⟨hr.symm, 1, ⟨⟨le_refl 1, hmax⟩, fun n hn => hn.1⟩, Or.inl ⟨rfl, rfl⟩⟩
  · simp only [hmax, if_false] at hres
    by_cases hd : pyTrunc (target * (cfg.rowAddressCount : ℚ) *
        (((1 <<< COLOR_BIT_DEPTH) - 1 : ℕ) : ℚ)) = 0
    · simp only [hd, if_true] at hres
      exact Option.noConfusion hres
    · simp only [hd, if_false] at hres
      set u0 : ℕ :=
        (max (Int.fdiv (cfg.systemFrequency : ℤ)
          (pyTrunc (target * (cfg.rowAddressCount : ℚ) *
            (((1 <<< COLOR_BIT_DEPTH) - 1 : ℕ) : ℚ))) * 2) 2).toNat with hu0def
      have hu0 : 2 ≤ u0 := by
        have h2 : (2 : ℤ) ≤ max (Int.fdiv (cfg.systemFrequency : ℤ)
            (pyTrunc (target * (cfg.rowAddressCount : ℚ) *
              (((1 <<< COLOR_BIT_DEPTH) - 1 : ℕ) : ℚ))) * 2) 2 := le_max_right _ _
        omega
      cases hexp : expandUpperBound cfg target fuel u0 with
      | none => rw [hexp] at hres; simp at hres
      | some upper =>
          rw [hexp] at hres
          simp only [Option.some.injEq, Prod.mk.injEq] at hres
          have hupper := expandUpperBound_spec cfg target fuel u0 upper hexp
          have hup2 : 2 ≤ upper := le_trans hu0 hupper.2
          have hbs := binarySearchLoop_spec cfg target hanti upper 1 upper
            (by omega) (by omega) hupper.1
          set bs := binarySearchLoop cfg target 1 upper with hbsdef
          obtain ⟨hbs1, hbsu, hbsle, hbslt⟩ := hbs
          have hbs2 : 2 ≤ bs := by
            rcases Nat.lt_or_ge bs 2 with hlt | hge
            · exfalso
              have : bs = 1 := by omega
              rw [this] at hbsle
              exact hmax hbsle
            · exact hge
          have hleast : IsLeast {n : ℕ | 1 ≤ n ∧ estimateRefreshRate cfg n ≤ target} bs := by
            refine ⟨⟨by omega, hbsle⟩, ?_⟩
            intro n hn
            by_contra hnc
            have hnlt : n < bs := by omega
            exact absurd hn.2 (not_le.mpr (hbslt n hn.1 hnlt))
          have habove : target < estimateRefreshRate cfg (bs - 1) :=
            hbslt (bs - 1) (by omega) (by omega)
          have hbelow : estimateRefreshRate cfg bs ≤ target := hbsle
          rw [if_pos (by omega : 1 < bs)] at hres
          by_cases hcond : estimateRefreshRate cfg (bs - 1) - target ≤
              target - estimateRefreshRate cfg bs
          · rw [if_pos hcond] at hres
            obtain ⟨hc, hr⟩ := hres
            subst hc
            refine ⟨hr.symm, bs, hleast, Or.inr ⟨hbs2, Or.inl rfl, ?_, ?_⟩⟩
            · rw [abs_of_nonneg (by linarith), abs_of_nonpos (by linarith)]
              linarith
            · rw [abs_of_nonneg (by linarith)]
          · rw [if_neg hcond] at hres
            obtain ⟨hc, hr⟩ := hres
            subst hc
            push_neg at hcond
            refine ⟨hr.symm, bs, hleast, Or.inr ⟨hbs2, Or.inr rfl, ?_, ?_⟩⟩
            · rw [abs_of_nonpos (by linarith)]
            · rw [abs_of_nonpos (by linarith), abs_of_nonneg (by linarith)]
              linarith

/-- Witness for C4: on the 1-row-pair, 1-column, 1 kHz configuration with
target `1`, the search commits `base_cycles = 4` (the least with estimate
`≤ 1`, whose estimate `50/57` is closer to `1` than `estimate(3) = 200/177`)
and returns `50/57`. -/
theorem c4_set_target_refresh_rate_picks_closest_witness :
    (50/57 : ℚ) = estimateRefreshRate ⟨1, 1, 500, 1000, 1, 0⟩ 4 ∧
      ∃ c : ℕ,
        IsLeast {n : ℕ | 1 ≤ n ∧ estimateRefreshRate ⟨1, 1, 500, 1000, 1, 0⟩ n ≤ 1} c ∧
        ((c = 1 ∧ (4 : ℕ) = 1) ∨
          (2 ≤ c ∧ ((4 : ℕ) = c - 1 ∨ (4 : ℕ) = c) ∧
            |estimateRefreshRate ⟨1, 1, 500, 1000, 1, 0⟩ 4 - 1| ≤
              |estimateRefreshRate ⟨1, 1, 500, 1000, 1, 0⟩ c - 1| ∧
            |estimateRefreshRate ⟨1, 1, 500, 1000, 1, 0⟩ 4 - 1| ≤
              |estimateRefreshRate ⟨1, 1, 500, 1000, 1, 0⟩ (c - 1) - 1|)) :=
  c4_set_target_refresh_rate_picks_closest ⟨1, 1, 500, 1000, 1, 0⟩ 5 1 4 (50/57)
    (by norm_num) (by norm_num) (by norm_num) (by with_unfolding_all rfl)

/-- **C2.** For every `base_cycles ≥ 1`, `brightness ∈ [0,1]`,
`blanking_time ≥ 0` and system clock frequency, the timing-word generator
writes, for every bitplane `i < COLOR_BIT_DEPTH`,
`timing[2i+1] = on_i = max(⌊brightness · (base_cycles << i)⌋, 0)` and
`timing[2i] = off_i = max(((base_cycles << i) − on_i) div 2 + blanking_cycles, 0)`
with `blanking_cycles = ⌊blanking_time · system_clock_hz / 10^9⌋`. -/
theorem c2_timing_word_formulas (base : ℕ) (b : ℚ) (bt : ℤ) (sys : ℕ)
    (hbase : 1 ≤ base) (hb0 : 0 ≤ b) (hb1 : b ≤ 1) (hbt : 0 ≤ bt)
    (i : ℕ) (hi : i < COLOR_BIT_DEPTH) :
    (updateTimingBuffer base b bt sys).getD (2 * i + 1) 0 =
        max ⌊b * ((base <<< i : ℕ) : ℚ)⌋ 0 ∧
      (updateTimingBuffer base b bt sys).getD (2 * i) 0 =
        max (Int.fdiv (((base <<< i : ℕ) : ℤ) - max ⌊b * ((base <<< i : ℕ) : ℚ)⌋ 0) 2
          + Int.fdiv (bt * sys) 1000000000) 0 := by
  refine ⟨?_, ?_⟩
  · rw [getD_updateTimingBuffer_on base b bt sys i hi]
    rfl
  · rw [getD_updateTimingBuffer_off base b bt sys i hi]
    rfl

/-- Witness for C2 at `base_cycles = 1`, `brightness = 1/2`, `blanking = 0`,
`sys = 125 MHz`, bitplane `0`. -/
theorem c2_timing_word_formulas_witness :
    (updateTimingBuffer 1 (1/2) 0 125000000).getD (2 * 0 + 1) 0 =
        max ⌊(1/2 : ℚ) * ((1 <<< 0 : ℕ) : ℚ)⌋ 0 ∧
      (updateTimingBuffer 1 (1/2) 0 125000000).getD (2 * 0) 0 =
        max (Int.fdiv (((1 <<< 0 : ℕ) : ℤ) - max ⌊(1/2 : ℚ) * ((1 <<< 0 : ℕ) : ℚ)⌋ 0) 2
          + Int.fdiv ((0 : ℤ) * 125000000) 1000000000) 0 :=
  c2_timing_word_formulas 1 (1/2) 0 125000000 le_rfl (by norm_num) (by norm_num)
    le_rfl 0 (by norm_num [COLOR_BIT_DEPTH])

/-- **C6 counterexample.** At `base_cycles = 1`, `brightness = 1/2`,
`blanking = 0` (so `blanking_cycles = 0`), bitplane `0` has
`on_0 = ⌊1/2⌋ = 0` and `off_0 = (1 − 0) div 2 = 0`, hence
`on_0 + 2·off_0 = 0 < 1 = window_0 + 2·blanking_cycles`: the claimed
inequality `on_i + 2·off_i ≥ window_i + 2·blanking_cycles` fails. -/
theorem c6_counterexample :
    ¬ ((updateTimingBuffer 1 (1/2) 0 125000000).getD (2 * 0 + 1) 0 +
        2 * (updateTimingBuffer 1 (1/2) 0 125000000).getD (2 * 0) 0 ≥
          ((1 <<< 0 : ℕ) : ℤ) + 2 * blankingCycles 0 125000000) := by
  have h1 : (updateTimingBuffer 1 (1/2) 0 125000000).getD (2 * 0 + 1) 0 = 0 := by
    rw [getD_updateTimingBuffer_on 1 (1/2) 0 125000000 0 (by norm_num [COLOR_BIT_DEPTH])]
    unfold onCycles
    norm_num
  have h2 : (updateTimingBuffer 1 (1/2) 0 125000000).getD (2 * 0) 0 = 0 := by
    rw [getD_updateTimingBuffer_off 1 (1/2) 0 125000000 0 (by norm_num [COLOR_BIT_DEPTH])]
    unfold offCycles onCycles blankingCycles
    norm_num
    rw [show Int.fdiv 1 2 = 0 from by decide]
  rw [h1, h2]
  have hbl : blankingCycles 0 125000000 = 0 := by
    unfold blankingCycles
    norm_num
  rw [hbl]
  norm_num

/-- **C6 (amended).** For every `base_cycles ≥ 1`, `brightness ∈ [0,1]` and
`blanking_cycles ≥ 0`, the generated timing words of each bitplane satisfy
`window_i + 2·blanking_cycles − 1 ≤ on_i + 2·off_i ≤ window_i + 2·blanking_cycles`
(the claimed `≥` direction holds only up to the one cycle lost when the
halving of `window_i − on_i` rounds down). -/
theorem c6_on_off_window_bounds (base : ℕ) (b : ℚ) (bt : ℤ) (sys : ℕ)
    (hbase : 1 ≤ base) (hb0 : 0 ≤ b) (hb1 : b ≤ 1) (hbt : 0 ≤ bt)
    (i : ℕ) (hi : i < COLOR_BIT_DEPTH) :
    ((base <<< i : ℕ) : ℤ) + 2 * blankingCycles bt sys - 1 ≤
        (updateTimingBuffer base b bt sys).getD (2 * i + 1) 0 +
          2 * (updateTimingBuffer base b bt sys).getD (2 * i) 0 ∧
      (updateTimingBuffer base b bt sys).getD (2 * i + 1) 0 +
          2 * (updateTimingBuffer base b bt sys).getD (2 * i) 0 ≤
        ((base <<< i : ℕ) : ℤ) + 2 * blankingCycles bt sys := by
  rw [getD_updateTimingBuffer_on base b bt sys i hi,
    getD_updateTimingBuffer_off base b bt sys i hi]
  exact onOff_sandwich b (base <<< i) (blankingCycles bt sys) hb0 hb1
    (blankingCycles_nonneg bt sys hbt)

/-- Witness for the amended C6 at `base_cycles = 3`, `brightness = 1/2`,
`blanking = 0`, bitplane `0`. -/
theorem c6_on_off_window_bounds_witness :
    ((3 <<< 0 : ℕ) : ℤ) + 2 * blankingCycles 0 125000000 - 1 ≤
        (updateTimingBuffer 3 (1/2) 0 125000000).getD (2 * 0 + 1) 0 +
          2 * (updateTimingBuffer 3 (1/2) 0 125000000).getD (2 * 0) 0 ∧
      (updateTimingBuffer 3 (1/2) 0 125000000).getD (2 * 0 + 1) 0 +
          2 * (updateTimingBuffer 3 (1/2) 0 125000000).getD (2 * 0) 0 ≤
        ((3 <<< 0 : ℕ) : ℤ) + 2 * blankingCycles 0 125000000 :=
  c6_on_off_window_bounds 3 (1/2) 0 125000000 (by norm_num) (by norm_num)
    (by norm_num) le_rfl 0 (by norm_num [COLOR_BIT_DEPTH])

/-- **C7.** Zero brightness yields `on_i = 0` for every bitplane, and full
brightness with zero blanking time yields `off_i = 0` for every bitplane. -/
theorem c7_brightness_boundaries (base : ℕ) (bt : ℤ) (sys : ℕ)
    (i : ℕ) (hi : i < COLOR_BIT_DEPTH) :
    (updateTimingBuffer base 0 bt sys).getD (2 * i + 1) 0 = 0 ∧
      (updateTimingBuffer base 1 0 sys).getD (2 * i) 0 = 0 := by
  constructor
  · rw [getD_updateTimingBuffer_on base 0 bt sys i hi]
    unfold onCycles
    norm_num
  · rw [getD_updateTimingBuffer_off base 1 0 sys i hi]
    unfold offCycles onCycles blankingCycles
    norm_num

/-- Witness for C7 at `base_cycles = 5`, `blanking = 7`, bitplane `3`. -/
theorem c7_brightness_boundaries_witness :
    (updateTimingBuffer 5 0 7 125000000).getD (2 * 3 + 1) 0 = 0 ∧
      (updateTimingBuffer 5 1 0 125000000).getD (2 * 3) 0 = 0 :=
  c7_brightness_boundaries 5 7 125000000 3 (by norm_num [COLOR_BIT_DEPTH])

/-- **C3 counterexample.**  Geometry `W = 1`, `2^A = 2` row pairs
(`height = 4`), `K = 6`, `max_value = 255`; image: top-left pixel `(0,0)` is
pure red `0xFF`, all other pixels black.  The scaled red channel is `255`
(every bit set), so under the claim the byte at
`(row_pair·K + bitplane)·W + column = (0·6 + 1)·1 + 0 = 1` would have its R1
bit (bit 7) set — the MSB-first bit 1 of the 6-bit value 63 is 1.  The
encoder instead leaves index 1 zero: the pair-`(0,0)` bitplane-1 byte lives
at the plane-major index `(bitplane·2^A + row_pair)·W + column =
(1·2 + 0)·1 + 0 = 2`. -/
theorem c3_counterexample :
    ((Display.loadPpmInner [255, 0, 0, 0, 0, 0, 0, 0, 0, 0, 0, 0] 12
        (List.replicate 12 0) 12 255).getD ((0 * 6 + 1) * 1 + 0) 0).testBit 7 = false ∧
      ((Display.loadPpmInner [255, 0, 0, 0, 0, 0, 0, 0, 0, 0, 0, 0] 12
        (List.replicate 12 0) 12 255).getD ((1 * 2 + 0) * 1 + 0) 0).testBit 7 = true := by
  with_unfolding_all decide

/-- **C3 (amended).**  In the encoded buffer, the byte carrying
`(row_pair, bitplane, column)` lies at the plane-major index
`(bitplane · 2^A + row_pair) · W + column` (each bitplane is a contiguous
`W · 2^A`-byte region), and bitplanes are ordered LSB-first in memory: on
bitplane index `p`, bits 7..2 of the byte are bit `p + 2` of the scaled
8-bit channel values `v · 255 // max_value` of the top and bottom pixels of
the pair (equivalently bit `p` of the 6-bit value `v >> 2`) — index 0 holds
the least significant used bit, index `K − 1 = 5` the most significant; no
gamma correction is applied by this encoder. -/
theorem c3_bitplane_layout_lsb_first (w rowPairs maxValue : ℕ) (input out : List ℕ)
    (hin : input.length = 2 * (3 * (if 256 ≤ maxValue then 2 else 1) * (w * rowPairs)))
    (hout : out.length = Display.COLOR_BIT_DEPTH * (w * rowPairs))
    (rp c p : ℕ) (hrp : rp < rowPairs) (hc : c < w) (hp : p < Display.COLOR_BIT_DEPTH) :
    (Display.loadPpmInner input input.length out out.length maxValue).getD
        ((p * rowPairs + rp) * w + c) 0 =
      Display.pairPlaneByte input maxValue (if 256 ≤ maxValue then 2 else 1)
        (input.length / 2) (rp * w + c) p ∧
    ((Display.pairPlaneByte input maxValue (if 256 ≤ maxValue then 2 else 1)
        (input.length / 2) (rp * w + c) p).testBit 7 =
      (Display.channelValue input maxValue (if 256 ≤ maxValue then 2 else 1)
        (3 * (if 256 ≤ maxValue then 2 else 1) * (rp * w + c))).testBit (p + 2) ∧
     (Display.pairPlaneByte input maxValue (if 256 ≤ maxValue then 2 else 1)
        (input.length / 2) (rp * w + c) p).testBit 2 =
      (Display.channelValue input maxValue (if 256 ≤ maxValue then 2 else 1)
        (3 * (if 256 ≤ maxValue then 2 else 1) * (rp * w + c) + input.length / 2 +
          2 * (if 256 ≤ maxValue then 2 else 1))).testBit (p + 2)) := by
  have hp6 : p < 6 := hp
  have hj : rp * w + c < w * rowPairs := by
    calc rp * w + c < rp * w + w := by omega
    _ = (rp + 1) * w := by ring
    _ ≤ rowPairs * w := Nat.mul_le_mul_right w (by omega)
    _ = w * rowPairs := Nat.mul_comm _ _
  constructor
  · rw [show (p * rowPairs + rp) * w + c = (rp * w + c) + (w * rowPairs) * p by ring]
    exact Display.loadPpmInner_getD input out maxValue (w * rowPairs) hin hout p hp
      (rp * w + c) hj
  · unfold Display.pairPlaneByte
    have hbits := Display.bitplaneByte_testBit p hp6
      (Display.channelValue input maxValue (if 256 ≤ maxValue then 2 else 1)
        (3 * (if 256 ≤ maxValue then 2 else 1) * (rp * w + c)))
      (Display.channelValue input maxValue (if 256 ≤ maxValue then 2 else 1)
        (3 * (if 256 ≤ maxValue then 2 else 1) * (rp * w + c) +
          (if 256 ≤ maxValue then 2 else 1)))
      (Display.channelValue input maxValue (if 256 ≤ maxValue then 2 else 1)
        (3 * (if 256 ≤ maxValue then 2 else 1) * (rp * w + c) +
          2 * (if 256 ≤ maxValue then 2 else 1)))
      (Display.channelValue input maxValue (if 256 ≤ maxValue then 2 else 1)
        (3 * (if 256 ≤ maxValue then 2 else 1) * (rp * w + c) + input.length / 2))
      (Display.channelValue input maxValue (if 256 ≤ maxValue then 2 else 1)
        (3 * (if 256 ≤ maxValue then 2 else 1) * (rp * w + c) + input.length / 2 +
          (if 256 ≤ maxValue then 2 else 1)))
      (Display.channelValue input maxValue (if 256 ≤ maxValue then 2 else 1)
        (3 * (if 256 ≤ maxValue then 2 else 1) * (rp * w + c) + input.length / 2 +
          2 * (if 256 ≤ maxValue then 2 else 1)))
    exact ⟨hbits.1, hbits.2.2.2.2.2⟩

/-- Witness for the amended C3 on the counterexample geometry, pair `(0,0)`,
bitplane `1`. -/
theorem c3_bitplane_layout_lsb_first_witness :
    (Display.loadPpmInner [255, 0, 0, 0, 0, 0, 0, 0, 0, 0, 0, 0]
        (([255, 0, 0, 0, 0, 0, 0, 0, 0, 0, 0, 0] : List ℕ).length)
        (List.replicate 12 0) ((List.replicate 12 (0 : ℕ)).length) 255).getD
        ((1 * 2 + 0) * 1 + 0) 0 =
      Display.pairPlaneByte [255, 0, 0, 0, 0, 0, 0, 0, 0, 0, 0, 0] 255
        (if 256 ≤ 255 then 2 else 1)
        (([255, 0, 0, 0, 0, 0, 0, 0, 0, 0, 0, 0] : List ℕ).length / 2) (0 * 1 + 0) 1 ∧
    ((Display.pairPlaneByte [255, 0, 0, 0, 0, 0, 0, 0, 0, 0, 0, 0] 255
        (if 256 ≤ 255 then 2 else 1)
        (([255, 0, 0, 0, 0, 0, 0, 0, 0, 0, 0, 0] : List ℕ).length / 2) (0 * 1 + 0) 1).testBit 7 =
      (Display.channelValue [255, 0, 0, 0, 0, 0, 0, 0, 0, 0, 0, 0] 255
        (if 256 ≤ 255 then 2 else 1)
        (3 * (if 256 ≤ 255 then 2 else 1) * (0 * 1 + 0))).testBit (1 + 2) ∧
     (Display.pairPlaneByte [255, 0, 0, 0, 0, 0, 0, 0, 0, 0, 0, 0] 255
        (if 256 ≤ 255 then 2 else 1)
        (([255, 0, 0, 0, 0, 0, 0, 0, 0, 0, 0, 0] : List ℕ).length / 2) (0 * 1 + 0) 1).testBit 2 =
      (Display.channelValue [255, 0, 0, 0, 0, 0, 0, 0, 0, 0, 0, 0] 255
        (if 256 ≤ 255 then 2 else 1)
        (3 * (if 256 ≤ 255 then 2 else 1) * (0 * 1 + 0) +
          ([255, 0, 0, 0, 0, 0, 0, 0, 0, 0, 0, 0] : List ℕ).length / 2 +
          2 * (if 256 ≤ 255 then 2 else 1))).testBit (1 + 2)) :=
  c3_bitplane_layout_lsb_first 1 2 255 [255, 0, 0, 0, 0, 0, 0, 0, 0, 0, 0, 0]
    (List.replicate 12 0) (by norm_num) (by norm_num [Display.COLOR_BIT_DEPTH])
    0 0 1 (by norm_num) (by norm_num) (by norm_num [Display.COLOR_BIT_DEPTH])

/-- **C5.**  `BitPlanes.load_ppm` preserves the invariant that every byte of
the bitplane buffer has its two least significant bits clear: each of the six
unrolled stores masks with constants whose bits 1 and 0 are zero, and the
rejection paths leave the buffer unchanged. -/
theorem c5_load_ppm_low_two_bits_zero (bp : Display.BitPlanes) (ppm : Display.PPMImage)
    (hinv : ∀ b ∈ bp.bitframeData, b % 4 = 0) :
    ∀ b ∈ (bp.load_ppm ppm).bitframeData, b % 4 = 0 := by
  intro b hb
  by_cases h1 : ppm.width ≠ bp.width ∨ ppm.height ≠ bp.height
  · rw [Display.load_ppm_dims_mismatch bp ppm h1] at hb
    exact hinv b hb
  · push_neg at h1
    obtain ⟨hw, hh⟩ := h1
    by_cases h2 : ppm.magicNumber ≠ "P6"
    · rw [Display.load_ppm_format_mismatch bp ppm hw hh h2] at hb
      exact hinv b hb
    · push_neg at h2
      cases hmv : ppm.maxValue with
      | none =>
          rw [Display.load_ppm_no_max_value bp ppm hw hh h2 hmv] at hb
          exact hinv b hb
      | some mv =>
          rw [Display.load_ppm_checked bp ppm mv hw hh h2 hmv] at hb
          by_cases h3 : ppm.imageData.length ≠
              (if 256 ≤ mv then 2 else 1) * ppm.width * ppm.height * 3
          · rw [if_pos h3] at hb
            exact hinv b hb
          · rw [if_neg h3] at hb
            exact Display.loadPpmInner_mem_mod_four ppm.imageData ppm.imageData.length
              bp.bitframeData bp.bitframeData.length mv hinv b hb

/-- Witness for C5: the first byte produced for the counterexample image over
a fresh `BitPlanes 1 4` (value `0x80`) has its two low bits clear. -/
theorem c5_load_ppm_low_two_bits_zero_witness :
    (((Display.BitPlanes.init 1 4).load_ppm
        ⟨"P6", 1, 4, some 255, [255, 0, 0, 0, 0, 0, 0, 0, 0, 0, 0, 0]⟩).bitframeData.getD
      0 0) % 4 = 0 :=
  c5_load_ppm_low_two_bits_zero (Display.BitPlanes.init 1 4)
    ⟨"P6", 1, 4, some 255, [255, 0, 0, 0, 0, 0, 0, 0, 0, 0, 0, 0]⟩
    (by intro b hb; simp [Display.BitPlanes.init] at hb; simp [hb])
    (((Display.BitPlanes.init 1 4).load_ppm
        ⟨"P6", 1, 4, some 255, [255, 0, 0, 0, 0, 0, 0, 0, 0, 0, 0, 0]⟩).bitframeData.getD
      0 0)
    (by with_unfolding_all decide)

/-- **C8.**  For a well-formed P6 image of matching dimensions: a source
buffer whose length differs from the expected
`bytes_per_channel · width · height · 3` makes `load_ppm` fail with the
byte-count `ValueError` and leaves the bitplane buffer untouched; a source
buffer of the expected length is loaded without error.  Likewise
`MatrixFrame.__init__` fails exactly when the buffer length differs from
`width · height · 3`. -/
theorem c8_size_mismatch_rejected_buffer_untouched (bp : Display.BitPlanes)
    (ppm : Display.PPMImage) (mv : ℕ)
    (hm : ppm.magicNumber = "P6") (hmv : ppm.maxValue = some mv)
    (hw : ppm.width = bp.width) (hh : ppm.height = bp.height) :
    (ppm.imageData.length ≠ (if 256 ≤ mv then 2 else 1) * ppm.width * ppm.height * 3 →
      (bp.load_ppm ppm).error = some "Unexpected PPM data byte count" ∧
        (bp.load_ppm ppm).bitframeData = bp.bitframeData) ∧
    (ppm.imageData.length = (if 256 ≤ mv then 2 else 1) * ppm.width * ppm.height * 3 →
      (bp.load_ppm ppm).error = none) ∧
    (∀ (data : List ℕ) (width height : ℕ),
      (∃ e, Frame.MatrixFrame.init data width height = Except.error e) ↔
        width * height * 3 ≠ data.length) := by
  refine ⟨?_, ?_, ?_⟩
  · intro hlen
    rw [Display.load_ppm_checked bp ppm mv hw hh hm hmv, if_pos hlen]
    exact ⟨rfl, rfl⟩
  · intro hlen
    rw [Display.load_ppm_checked bp ppm mv hw hh hm hmv,
      if_neg (by exact fun h => h hlen)]
  · intro data width height
    unfold Frame.MatrixFrame.init
    by_cases hsz : width * height * 3 ≠ data.length
    · rw [if_pos hsz]
      exact ⟨fun _ => hsz, fun _ => ⟨"Expected width * height * 3 bytes", rfl⟩⟩
    · rw [if_neg hsz]
      constructor
      · rintro ⟨e, he⟩
        exact absurd he (by simp)
      · intro h
        exact absurd h hsz

/-- Witness for C8: wrong-sized (11-byte) and right-sized (12-byte) data for
a `1 × 4` P6 image with `max_value = 255`. -/
theorem c8_size_mismatch_rejected_buffer_untouched_witness :
    ((([255, 0, 0, 0, 0, 0, 0, 0, 0, 0, 0] : List ℕ).length ≠
        (if 256 ≤ 255 then 2 else 1) * 1 * 4 * 3 →
      ((Display.BitPlanes.init 1 4).load_ppm
          ⟨"P6", 1, 4, some 255, [255, 0, 0, 0, 0, 0, 0, 0, 0, 0, 0]⟩).error =
        some "Unexpected PPM data byte count" ∧
        ((Display.BitPlanes.init 1 4).load_ppm
          ⟨"P6", 1, 4, some 255, [255, 0, 0, 0, 0, 0, 0, 0, 0, 0, 0]⟩).bitframeData =
          (Display.BitPlanes.init 1 4).bitframeData) ∧
    ((([255, 0, 0, 0, 0, 0, 0, 0, 0, 0, 0] : List ℕ).length =
        (if 256 ≤ 255 then 2 else 1) * 1 * 4 * 3 →
      ((Display.BitPlanes.init 1 4).load_ppm
          ⟨"P6", 1, 4, some 255, [255, 0, 0, 0, 0, 0, 0, 0, 0, 0, 0]⟩).error = none) ∧
    (∀ (data : List ℕ) (width height : ℕ),
      (∃ e, Frame.MatrixFrame.init data width height = Except.error e) ↔
        width * height * 3 ≠ data.length))) ∧
    (11 ≠ (if (256:ℕ) ≤ 255 then 2 else 1) * 1 * 4 * 3) :=
  ⟨c8_size_mismatch_rejected_buffer_untouched (Display.BitPlanes.init 1 4)
      ⟨"P6", 1, 4, some 255, [255, 0, 0, 0, 0, 0, 0, 0, 0, 0, 0]⟩ 255
      rfl rfl rfl rfl,
    by norm_num⟩

namespace Hub75

namespace Driver

/-- `set_target_refresh_rate` only rewrites `base_cycles` and the timing
buffer; brightness and blanking time are untouched. -/
theorem set_target_refresh_rate_preserves (d : Hub75Driver) (fuel : ℕ) (t : ℚ)
    (d' : Hub75Driver) (r : ℚ)
    (h : d.set_target_refresh_rate fuel t = some (d', r)) :
    d'.brightness = d.brightness ∧ d'.blankingTime = d.blankingTime := by
  unfold Hub75Driver.set_target_refresh_rate at h
  split at h
  · exact Option.noConfusion h
  · simp only [Option.some.injEq, Prod.mk.injEq] at h
    obtain ⟨hd, _⟩ := h
    subst hd
    exact ⟨rfl, rfl⟩

end Driver

end Hub75

/-- **C1.** `flip()` toggles the active buffer index between 0 and 1 and
stores the address of the new front buffer into the single-word
active-pointer cell; load and clear afterwards rewrite only the other
(back) buffer, leaving the front buffer untouched. -/
theorem c1_flip_semantics (d : Hub75Driver)
    (h : d.activeBufferIndex = 0 ∨ d.activeBufferIndex = 1) :
    ((d.activeBufferIndex = 0 → d.flip.activeBufferIndex = 1) ∧
      (d.activeBufferIndex = 1 → d.flip.activeBufferIndex = 0) ∧
      (d.flip.activeBufferIndex = 0 ∨ d.flip.activeBufferIndex = 1) ∧
      d.flip.activeBufferIndex ≠ d.activeBufferIndex) ∧
    d.flip.activeBufferAddressPointer = d.flip.addressOf d.flip.activeBufferIndex ∧
    d.flip.inactiveBufferIndex = d.activeBufferIndex ∧
    (∀ encode : List ℕ → List ℕ,
      (d.flip.load_rgb888 encode).buffers d.flip.activeBufferIndex =
        d.flip.buffers d.flip.activeBufferIndex ∧
      ∀ i, (d.flip.load_rgb888 encode).buffers i ≠ d.flip.buffers i →
        i = d.flip.inactiveBufferIndex) ∧
    (d.flip.clear.buffers d.flip.activeBufferIndex =
        d.flip.buffers d.flip.activeBufferIndex ∧
      ∀ i, d.flip.clear.buffers i ≠ d.flip.buffers i →
        i = d.flip.inactiveBufferIndex) := by
  have hidx : d.flip.activeBufferIndex = 1 - d.activeBufferIndex := rfl
  have hinact : d.flip.inactiveBufferIndex = 1 - (1 - d.activeBufferIndex) := rfl
  have hinact' : d.flip.inactiveBufferIndex = d.activeBufferIndex := by omega
  have hne : d.flip.activeBufferIndex ≠ d.flip.inactiveBufferIndex := by omega
  refine ⟨⟨by omega, by omega, by omega, by omega⟩, rfl, hinact', ?_, ?_⟩
  · intro encode
    constructor
    · exact Function.update_noteq hne _ _
    · intro i hi
      by_contra hii
      exact hi (Function.update_noteq hii _ _)
  · constructor
    · exact Function.update_noteq hne _ _
    · intro i hi
      by_contra hii
      exact hi (Function.update_noteq hii _ _)

/-- Witness for C1 on a concrete driver state with `active_buffer_index = 0`. -/
theorem c1_flip_semantics_witness :
    let dW : Hub75Driver :=
      ⟨1, 2, 500, 1000, 1, 0, 22/10, 1, [], fun _ => [7], 0, 1000, fun i => 1000 + i⟩
    ((dW.activeBufferIndex = 0 → dW.flip.activeBufferIndex = 1) ∧
      (dW.activeBufferIndex = 1 → dW.flip.activeBufferIndex = 0) ∧
      (dW.flip.activeBufferIndex = 0 ∨ dW.flip.activeBufferIndex = 1) ∧
      dW.flip.activeBufferIndex ≠ dW.activeBufferIndex) ∧
    dW.flip.activeBufferAddressPointer = dW.flip.addressOf dW.flip.activeBufferIndex ∧
    dW.flip.inactiveBufferIndex = dW.activeBufferIndex ∧
    (∀ encode : List ℕ → List ℕ,
      (dW.flip.load_rgb888 encode).buffers dW.flip.activeBufferIndex =
        dW.flip.buffers dW.flip.activeBufferIndex ∧
      ∀ i, (dW.flip.load_rgb888 encode).buffers i ≠ dW.flip.buffers i →
        i = dW.flip.inactiveBufferIndex) ∧
    (dW.flip.clear.buffers dW.flip.activeBufferIndex =
        dW.flip.buffers dW.flip.activeBufferIndex ∧
      ∀ i, dW.flip.clear.buffers i ≠ dW.flip.buffers i →
        i = dW.flip.inactiveBufferIndex) :=
  c1_flip_semantics
    ⟨1, 2, 500, 1000, 1, 0, 22/10, 1, [], fun _ => [7], 0, 1000, fun i => 1000 + i⟩
    (Or.inl rfl)

/-- **C9.** `set_brightness` stores and returns `min(1, max(0, b))`,
`set_blanking_time` stores and returns `max(0, ns)`, and driver construction
also clamps, so the stored brightness always lies in `[0, 1]` and the stored
blanking time is never negative; out-of-range inputs are clamped, not
rejected. -/
theorem c9_brightness_blanking_clamped (d : Hub75Driver) (b : ℚ) (ns : ℤ) :
    ((d.set_brightness b).2 = min 1 (max 0 b) ∧
      (d.set_brightness b).1.brightness = min 1 (max 0 b) ∧
      0 ≤ (d.set_brightness b).1.brightness ∧ (d.set_brightness b).1.brightness ≤ 1) ∧
    ((d.set_blanking_time ns).2 = max 0 ns ∧
      (d.set_blanking_time ns).1.blankingTime = max 0 ns ∧
      0 ≤ (d.set_blanking_time ns).1.blankingTime) ∧
    (∀ (fuel a w df sys : ℕ) (b0 : ℚ) (bt : ℤ) (g t : ℚ) (addr : ℕ → ℕ)
        (d' : Hub75Driver),
      Hub75Driver.init fuel a w df sys b0 bt g t addr = some d' →
        0 ≤ d'.brightness ∧ d'.brightness ≤ 1 ∧ 0 ≤ d'.blankingTime) := by
  have hminmax : ∀ x : ℚ, max 0 (min 1 x) = min 1 (max 0 x) := by
    intro x
    rw [max_min_distrib_left]
    norm_num
  refine ⟨⟨?_, ?_, ?_, ?_⟩, ⟨rfl, rfl, le_max_left _ _⟩, ?_⟩
  · exact hminmax b
  · exact hminmax b
  · rw [show (d.set_brightness b).1.brightness = max 0 (min 1 b) from rfl]
    exact le_max_left _ _
  · rw [show (d.set_brightness b).1.brightness = max 0 (min 1 b) from rfl]
    exact max_le (by norm_num) (min_le_left _ _)
  · intro fuel a w df sys b0 bt g t addr d' hinit
    simp only [Hub75Driver.init] at hinit
    split at hinit
    · exact Option.noConfusion hinit
    · rename_i d1 rate heq
      simp only [Option.some.injEq] at hinit
      have hpres := set_target_refresh_rate_preserves _ fuel t d1 rate heq
      have hbright : d'.brightness = d1.brightness := by rw [← hinit]
      have hblank : d'.blankingTime = d1.blankingTime := by rw [← hinit]
      refine ⟨?_, ?_, ?_⟩
      · rw [hbright, hpres.1]
        exact le_max_left _ _
      · rw [hbright, hpres.1]
        exact max_le (by norm_num) (min_le_left _ _)
      · rw [hblank, hpres.2]
        exact le_max_left _ _

/-- Witness for C9 with out-of-range inputs `b = 2`, `ns = −5`. -/
theorem c9_brightness_blanking_clamped_witness :
    (((⟨1, 2, 500, 1000, 1, 0, 22/10, 1, [], fun _ => [7], 0, 1000, fun i => 1000 + i⟩ :
        Hub75Driver).set_brightness 2).2 = min 1 (max 0 2) ∧
      ((⟨1, 2, 500, 1000, 1, 0, 22/10, 1, [], fun _ => [7], 0, 1000, fun i => 1000 + i⟩ :
        Hub75Driver).set_brightness 2).1.brightness = min 1 (max 0 2) ∧
      0 ≤ ((⟨1, 2, 500, 1000, 1, 0, 22/10, 1, [], fun _ => [7], 0, 1000, fun i => 1000 + i⟩ :
        Hub75Driver).set_brightness 2).1.brightness ∧
      ((⟨1, 2, 500, 1000, 1, 0, 22/10, 1, [], fun _ => [7], 0, 1000, fun i => 1000 + i⟩ :
        Hub75Driver).set_brightness 2).1.brightness ≤ 1) ∧
    (((⟨1, 2, 500, 1000, 1, 0, 22/10, 1, [], fun _ => [7], 0, 1000, fun i => 1000 + i⟩ :
        Hub75Driver).set_blanking_time (-5)).2 = max 0 (-5) ∧
      ((⟨1, 2, 500, 1000, 1, 0, 22/10, 1, [], fun _ => [7], 0, 1000, fun i => 1000 + i⟩ :
        Hub75Driver).set_blanking_time (-5)).1.blankingTime = max 0 (-5) ∧
      0 ≤ ((⟨1, 2, 500, 1000, 1, 0, 22/10, 1, [], fun _ => [7], 0, 1000, fun i => 1000 + i⟩ :
        Hub75Driver).set_blanking_time (-5)).1.blankingTime) ∧
    (∀ (fuel a w df sys : ℕ) (b0 : ℚ) (bt : ℤ) (g t : ℚ) (addr : ℕ → ℕ)
        (d' : Hub75Driver),
      Hub75Driver.init fuel a w df sys b0 bt g t addr = some d' →
        0 ≤ d'.brightness ∧ d'.brightness ≤ 1 ∧ 0 ≤ d'.blankingTime) :=
  c9_brightness_blanking_clamped
    ⟨1, 2, 500, 1000, 1, 0, 22/10, 1, [], fun _ => [7], 0, 1000, fun i => 1000 + i⟩ 2 (-5)
